import Mathlib

/-!
Shallow embedding of the `augentic/lints` static-analysis engine
(`src/diagnostics.rs`, `src/rules.rs`, `src/constraints.rs`, `src/config.rs`,
`src/lib.rs`, `.old/src/llm.rs`) and proofs about its specification claims.

Strings are modelled byte-for-byte as `List Char` restricted to the ASCII
range, matching the Rust code's byte-level scanning (`content.as_bytes()`);
Unicode-specific behaviour (multi-byte UTF-8, non-ASCII whitespace classes)
is outside the model.
-/

namespace Lints

/-- Whitespace test used for the regex class `\s` (ASCII subset). -/
def isWs (c : Char) : Bool :=
  c = ' ' || c = '\t' || c = '\n' || c = '\r'

/-- Word-character test used for the regex class `\w` (ASCII subset). -/
def isWordChar (c : Char) : Bool :=
  (('a' ≤ c && c ≤ 'z') || ('A' ≤ c && c ≤ 'Z') || ('0' ≤ c && c ≤ '9') || c = '_')

/-- `p` is a prefix of `l` (on character lists). -/
def listIsPrefix : List Char → List Char → Bool
  | [], _ => true
  | _ :: _, [] => false
  | a :: p, b :: l => a = b && listIsPrefix p l

/-- `pat` occurs somewhere inside `l` as a contiguous substring. -/
def listContains (l pat : List Char) : Bool :=
  match l with
  | [] => listIsPrefix pat []
  | _ :: rest => listIsPrefix pat l || listContains rest pat

/-- Substring test on strings (Rust `str::contains` with a literal pattern). -/
def strContains (s pat : String) : Bool :=
  listContains s.data pat.data

/-- Prefix test on strings (Rust `str::starts_with`). -/
def strStartsWith (s pat : String) : Bool :=
  listIsPrefix pat.data s.data

/-- Strip leading and trailing whitespace (Rust `str::trim`, ASCII subset). -/
def trimChars (l : List Char) : List Char :=
  ((l.dropWhile isWs).reverse.dropWhile isWs).reverse

/-- `String` version of `trimChars`. -/
def strTrim (s : String) : String := ⟨trimChars s.data⟩

/-- ASCII lowercase map (Rust `str::to_lowercase`, ASCII subset). -/
def strToLower (s : String) : String := ⟨s.data.map Char.toLower⟩

/-- Split a character list at every occurrence of `sep`
(Rust `str::split`, which always yields `n+1` parts for `n` separators). -/
def splitOnChar (sep : Char) : List Char → List (List Char)
  | [] => [[]]
  | c :: rest =>
    match splitOnChar sep rest with
    | h :: t => if c = sep then [] :: h :: t else (c :: h) :: t
    | [] => if c = sep then [[], []] else [[c]]

/-- Rust `str::lines`: split on `'\n'`, dropping one trailing empty segment
produced by a terminal newline. -/
def rustLines (s : String) : List String :=
  let parts := (splitOnChar '\n' s.data).map (fun l => (⟨l⟩ : String))
  match parts.getLast? with
  | some last => if last = "" then parts.dropLast else parts
  | none => parts

/-- Pair every list element with its 0-based index starting at `n`
(Rust `Iterator::enumerate`). -/
def enumL (n : Nat) : List α → List (Nat × α)
  | [] => []
  | a :: l => (n, a) :: enumL (n + 1) l

/-! ## Rule metadata (`src/rules.rs`, `.old/src/llm.rs`) -/

/-- Severity of rule violations (`RuleSeverity` in `src/rules.rs`). -/
inductive RuleSeverity
  | Hint
  | Info
  | Warning
  | Error
deriving DecidableEq

/-- Numeric rank backing the `#[derive(PartialOrd, Ord)]` on `RuleSeverity`. -/
def RuleSeverity.rank : RuleSeverity → Nat
  | .Hint => 0
  | .Info => 1
  | .Warning => 2
  | .Error => 3

/-- `<` on severities, as derived in the source from declaration order. -/
def sevLt (a b : RuleSeverity) : Bool := a.rank < b.rank

/-- Categories of rules (`RuleCategory` in `src/rules.rs`). -/
inductive RuleCategory
  | Handler
  | Provider
  | Context
  | Error
  | Response
  | Wasm
  | Stateless
  | Performance
  | Security
  | StrongTyping
  | Caching
  | Time
  | Auth
deriving DecidableEq

/-- Severity levels for handler issues (`IssueSeverity` in `.old/src/llm.rs`). -/
inductive IssueSeverity
  | Error
  | Warning
  | Info
  | Hint
deriving DecidableEq

/-! ## Suppression engine (`src/diagnostics.rs` lines 12–97) -/

/-- Parsed ignore directive (`IgnoreDirective` in `src/diagnostics.rs`).
`rules = none` means "ignore all rules". The Rust `HashSet<String>` is
modelled as a list queried only through membership. -/
structure IgnoreDirective where
  line : Nat
  is_file_level : Bool
  rules : Option (List String)
deriving DecidableEq

/-- `IgnoreDirective::allows`: a directive with no restricted set allows
every rule; otherwise the set must contain the id or its lowercase form. -/
def IgnoreDirective.allows (d : IgnoreDirective) (rule_id : String) : Bool :=
  match d.rules with
  | none => true
  | some rs => rs.contains rule_id || rs.contains (strToLower rule_id)

/-- Match the directive regex `#(!?)\[omnia::allow\(([^)]+)\)\]` anchored at
the head of `l`; returns the bang flag and the capture on success. -/
def matchAllowAt (l : List Char) : Option (Bool × List Char) :=
  match l with
  | '#' :: rest =>
    let bang := match rest with
      | '!' :: _ => true
      | _ => false
    let rest2 := if bang then rest.tail else rest
    if listIsPrefix "[omnia::allow(".data rest2 then
      let after := rest2.drop 14
      let cap := after.takeWhile (fun c => c ≠ ')')
      if cap ≠ [] && listIsPrefix ")]".data (after.drop cap.length) then
        some (bang, cap)
      else none
    else none
  | _ => none

/-- Leftmost match of the directive regex inside `l` (Rust `Regex::captures`). -/
def findAllow : List Char → Option (Bool × List Char)
  | [] => none
  | l@(_ :: rest) =>
    match matchAllowAt l with
    | some r => some r
    | none => findAllow rest

/-- `parse_ignore_directives` (`src/diagnostics.rs` lines 40–73): scan every
trimmed line for the allow-attribute; the argument `all` (case-insensitive)
yields an unrestricted directive, otherwise the comma-separated ids form the
rule set (trimmed, empty entries dropped). -/
def parseIgnoreDirectives (content : String) : List IgnoreDirective :=
  (enumL 0 (rustLines content)).flatMap fun p =>
    match findAllow (trimChars p.2.data) with
    | none => []
    | some (bang, cap) =>
      let rules : Option (List String) :=
        if strToLower (strTrim ⟨cap⟩) = "all" then none
        else some (((splitOnChar ',' cap).map (fun c => strTrim ⟨c⟩)).filter
          (fun s => s ≠ ""))
      [{ line := p.1 + 1, is_file_level := bang, rules := rules }]

/-- `should_ignore_diagnostic` (`src/diagnostics.rs` lines 76–97): a
diagnostic is dropped when a file-level directive allows its rule, or when a
line-level directive allowing the rule sits strictly before it within a
10-line trailing window. -/
def shouldIgnoreDiagnostic (diagnostic_line : Nat) (rule_id : String)
    (directives : List IgnoreDirective) : Bool :=
  directives.any fun d =>
    (d.is_file_level && d.allows rule_id) ||
    (!d.is_file_level && decide (d.line < diagnostic_line) &&
      decide (diagnostic_line ≤ d.line + 10) && d.allows rule_id)

/-! ## Lexical classifier (`src/diagnostics.rs` lines 164–239) -/

/-- Character of `cs` at index `i` (the scanner only tests indices it has
checked to be in bounds, so the default is never semantically relevant). -/
def charAt (cs : List Char) (i : Nat) : Char := cs.getD i (Char.ofNat 0)

/-- First index `j ≥ i` whose character satisfies `p` (or the end of the
content when every later character fails `p`). -/
def scanTo (cs : List Char) (p : Char → Bool) (i : Nat) : Nat :=
  i + ((cs.drop i).takeWhile (fun c => !p c)).length

/-- Length of the run of `'#'` characters starting at index `i`. -/
def hashRunLen (cs : List Char) (i : Nat) : Nat :=
  ((cs.drop i).takeWhile (fun c => c = '#')).length

/-- Raw-string opener test at index `i`: an `r`, then `h` hashes, then a
quote at index `j`; mirrors `src/diagnostics.rs` lines 179–188. -/
def rawOpen (cs : List Char) (i : Nat) : Option (Nat × Nat) :=
  if charAt cs i = 'r' && decide (i + 1 < cs.length) then
    if decide (i + 1 + hashRunLen cs (i + 1) < cs.length) &&
        charAt cs (i + 1 + hashRunLen cs (i + 1)) = '"' then
      some (hashRunLen cs (i + 1), i + 1 + hashRunLen cs (i + 1))
    else none
  else none

/-- Closing-quote search for a conventional string, starting at `i` just
past the opening quote; skips `\x5cX` escape pairs exactly as the source
does (`src/diagnostics.rs` lines 218–231). Returns the index of the closing
quote, or `none` when the string never closes before end of input. The
scan position advances on every step, so `cs.length + 1` units of fuel make
the fuel bound unreachable from any in-range start. -/
def findClose (cs : List Char) : Nat → Nat → Option Nat
  | 0, _ => none
  | fuel + 1, i =>
    if decide (i < cs.length) then
      if charAt cs i = '\\' && decide (i + 1 < cs.length) then
        findClose cs fuel (i + 2)
      else if charAt cs i = '"' then some i
      else findClose cs fuel (i + 1)
    else none

/-- Closing-delimiter search for a raw string with `h` hashes, starting at
`j` just past the opening quote (`src/diagnostics.rs` lines 191–207).
Returns the index one past the final closing hash. -/
def findRawClose (cs : List Char) (h : Nat) : Nat → Nat → Option Nat
  | 0, _ => none
  | fuel + 1, j =>
    if decide (j < cs.length) then
      if charAt cs j = '"' && decide (h ≤ hashRunLen cs (j + 1)) then
        some (j + 1 + h)
      else findRawClose cs h fuel (j + 1)
    else none

/-- Scanner loop of `is_inside_string_literal_at_offset`. The Rust loop
advances `i` strictly on each iteration, so `cs.length + 1` units of fuel
reproduce it exactly; the one divergence is an unterminated raw string, on
which the Rust loop never returns (it re-enters with `i` unchanged) while
this model answers `false`. -/
def insideGo (cs : List Char) (off : Nat) : Nat → Nat → Bool
  | 0, _ => false
  | fuel + 1, i =>
    if decide (i < off) && decide (i < cs.length) then
      if decide (i + 1 < cs.length) && charAt cs i = '/' && charAt cs (i + 1) = '/' then
        insideGo cs off fuel (scanTo cs (fun c => c = '\n') i)
      else
        match rawOpen cs i with
        | some (h, j) =>
          (match findRawClose cs h (cs.length + 1) (j + 1) with
           | some k => if decide (off > i) && decide (off < k) then true
               else insideGo cs off fuel k
           | none => false)
        | none =>
          if charAt cs i = '"' then
            match findClose cs (cs.length + 1) (i + 1) with
            | some cq => if decide (off > i) && decide (off ≤ cq) then true
                else insideGo cs off fuel (cq + 1)
            | none => false
          else insideGo cs off fuel (i + 1)
    else false

/-- `is_inside_string_literal_at_offset(content, byte_offset)`
(`src/diagnostics.rs` lines 165–239). -/
def insideStringLit (content : String) (byte_offset : Nat) : Bool :=
  insideGo content.data byte_offset (content.data.length + 1) 0

/-! Reference description of the string regions the scanner detects,
written from the spec (§4.1): a single left-to-right scan consuming line
comments to end of line, raw-delimited strings whose closing quote must be
followed by exactly as many hashes as the opener, and conventional quoted
strings with backslash-escape skipping. Each region records its delimiter
positions so boundary semantics can be stated precisely. -/

/-- Kind of a detected string region. -/
inductive RegionKind
  | plain
  | raw
deriving DecidableEq

/-- One detected string region. For `plain`, `openIdx` is the opening quote
and `closeIdx` the closing quote; for `raw`, `openIdx` is the introducer
`r` and `closeIdx` is one past the final closing hash. -/
structure StrRegion where
  kind : RegionKind
  openIdx : Nat
  closeIdx : Nat
deriving DecidableEq

/-- The offsets for which the source scanner reports membership in a
region: open-exclusive on the left; for plain strings the closing quote
itself is still included, for raw strings every offset strictly before the
end of the closing delimiter run is included. -/
def inRegion (r : StrRegion) (off : Nat) : Bool :=
  match r.kind with
  | .plain => decide (r.openIdx < off) && decide (off ≤ r.closeIdx)
  | .raw => decide (r.openIdx < off) && decide (off < r.closeIdx)

/-- Region-collecting scan: same traversal as `insideGo`, but it records
every detected string region over the whole content instead of answering a
single membership query. -/
def regionsGo (cs : List Char) : Nat → Nat → List StrRegion
  | 0, _ => []
  | fuel + 1, i =>
    if decide (i < cs.length) then
      if decide (i + 1 < cs.length) && charAt cs i = '/' && charAt cs (i + 1) = '/' then
        regionsGo cs fuel (scanTo cs (fun c => c = '\n') i)
      else
        match rawOpen cs i with
        | some (h, j) =>
          (match findRawClose cs h (cs.length + 1) (j + 1) with
           | some k => ⟨.raw, i, k⟩ :: regionsGo cs fuel k
           | none => [])
        | none =>
          if charAt cs i = '"' then
            match findClose cs (cs.length + 1) (i + 1) with
            | some cq => ⟨.plain, i, cq⟩ :: regionsGo cs fuel (cq + 1)
            | none => []
          else regionsGo cs fuel (i + 1)
    else []

/-- All string regions the scanner detects in `content`. -/
def stringRegions (content : String) : List StrRegion :=
  regionsGo content.data (content.data.length + 1) 0

/-! ## Diagnostics and rule matching (`src/diagnostics.rs`, `src/rules.rs`) -/

/-- A diagnostic message produced by the linter (`Diagnostic` in
`src/diagnostics.rs` lines 100–131). -/
structure Diagnostic where
  line : Nat
  column : Nat
  end_column : Nat
  severity : RuleSeverity
  rule_id : String
  rule_name : String
  category : RuleCategory
  message : String
  fix_template : Option String
  source_snippet : Option String
deriving DecidableEq

/-- A catalog rule (`Rule` in `src/rules.rs`), with its compiled regex
represented by its matching function `find : line → first match span`
(start inclusive, end exclusive), as produced by Rust `Regex::find`. The
catalog itself is data the engine is instantiated with (spec §1 places the
catalog's content out of scope as configuration data). -/
structure MRule where
  id : String
  name : String
  category : RuleCategory
  severity : RuleSeverity
  description : String
  find : String → Option (Nat × Nat)
  isAntiPat : Bool
  fix_template : Option String

/-- A forbidden pattern (`ForbiddenPattern` in `src/constraints.rs`) paired
with its compiled regexes, as held in `DiagnosticsEngine.compiled_patterns`. -/
structure MForbiddenPattern where
  id : String
  name : String
  reason : String
  regexes : List (String → Option (Nat × Nat))
  alternative : String
  severity : RuleSeverity

/-- `calculate_byte_offset(content, line_idx, col)` (`src/diagnostics.rs`
lines 242–251): sum of earlier line lengths plus one per newline, plus
`col` clamped to the line length. -/
def calcByteOffset (content : String) (line_idx col : Nat) : Nat :=
  go (rustLines content) 0 0
where
  go : List String → Nat → Nat → Nat
    | [], _, offset => offset
    | l :: rest, idx, offset =>
      if idx = line_idx then offset + min col l.data.length
      else go rest (idx + 1) (offset + l.data.length + 1)

/-- Match of the regex `\.(unwrap|expect)\s*\(` anchored at the head of
`l`; returns the match length. -/
def matchUnwrapAt (l : List Char) : Option Nat :=
  match l with
  | '.' :: rest =>
    let core :=
      if listIsPrefix "unwrap".data rest then some 6
      else if listIsPrefix "expect".data rest then some 6
      else none
    match core with
    | none => none
    | some n =>
      let tail := rest.drop n
      let w := (tail.takeWhile isWs).length
      if charAt tail w = '(' && decide (w < tail.length) then some (1 + n + w + 1)
      else none
  | _ => none

/-- Leftmost match (Rust `Regex::find`) for an anchored matcher returning a
match length. -/
def findPatFrom (f : List Char → Option Nat) : List Char → Nat → Option (Nat × Nat)
  | [], _ => none
  | l@(_ :: rest), i =>
    match f l with
    | some len => some (i, i + len)
    | none => findPatFrom f rest (i + 1)

/-- All successive non-overlapping matches (Rust `Regex::find_iter`),
used only to count occurrences of a call-shape. -/
def findPatAll (f : List Char → Option Nat) : List Char → Nat → Nat → List (Nat × Nat)
  | _, _, 0 => []
  | [], _, _ => []
  | l@(_ :: rest), i, fuel + 1 =>
    match f l with
    | some len => (i, i + len) :: findPatAll f (l.drop len) (i + len) fuel
    | none => findPatAll f rest (i + 1) fuel

/-- Occurrences of the unwrap/expect call-shape in a line. -/
def unwrapOccurrences (line : String) : List (Nat × Nat) :=
  findPatAll matchUnwrapAt line.data 0 (line.data.length + 1)

/-- The `error_generic_unwrap` rule (`src/rules.rs` lines 204–214). -/
def unwrapRule : MRule :=
  { id := "error_generic_unwrap"
    name := "Avoid unwrap/expect"
    category := .Error
    severity := .Warning
    description := "Avoid .unwrap() and .expect() as they cause panics. Use ? operator instead."
    find := fun line => findPatFrom matchUnwrapAt line.data 0
    isAntiPat := true
    fix_template := some ".ok_or_else(|| bad_request!(\"error message\"))?" }

/-- The diagnostics a single catalog rule contributes for one line in
`DiagnosticsEngine::check_rules` (`src/diagnostics.rs` lines 365–399): for
an anti-pattern rule, the first regex match on the line — unless the
whole-file offset of that match lies inside a string literal — yields one
diagnostic carrying the rule's metadata. -/
def ruleLineDiags (rule : MRule) (content line : String) (line_idx : Nat) :
    List Diagnostic :=
  if rule.isAntiPat then
    match rule.find line with
    | some (s, e) =>
      if insideStringLit content (calcByteOffset content line_idx s) then []
      else
        [{ line := line_idx + 1, column := s, end_column := e
           severity := rule.severity, rule_id := rule.id, rule_name := rule.name
           category := rule.category
           message := match rule.fix_template with
             | some fix => rule.description ++ "\n\nSuggested fix: " ++ fix
             | none => rule.description
           fix_template := rule.fix_template, source_snippet := some line }]
    | none => []
  else []

/-- `DiagnosticsEngine::check_rules`: every rule of the catalog is applied
to the line in order. -/
def checkRules (rules : List MRule) (content line : String) (line_idx : Nat) :
    List Diagnostic :=
  rules.flatMap fun rule => ruleLineDiags rule content line line_idx

/-! Forbidden crates (`src/constraints.rs` lines 33–84) and the crate
checks of `DiagnosticsEngine::analyze`. -/

/-- `forbidden_crates()`: the crate denylist. -/
def forbiddenCrates : List String :=
  ["reqwest", "hyper", "surf", "ureq", "isahc", "attohttpc",
   "redis", "fred",
   "rdkafka", "kafka",
   "lapin", "amqp",
   "tokio", "async-std", "smol", "actix-rt", "futures-executor",
   "rayon", "crossbeam", "parking_lot",
   "once_cell", "lazy_static",
   "dashmap", "evmap",
   "sqlx", "diesel", "rusqlite", "postgres", "mysql", "mongodb",
   "tempfile", "directories",
   "socket2", "mio", "quinn"]

/-- `OmniaContext::is_forbidden_crate`. -/
def isForbiddenCrate (name : String) : Bool := forbiddenCrates.contains name

/-- `get_crate_alternative` (`src/diagnostics.rs` lines 451–485). -/
def getCrateAlternative (crate_name : String) : String :=
  if ["reqwest", "hyper", "surf", "ureq", "isahc", "attohttpc"].contains crate_name then
    "Use the HttpRequest provider trait (ctx.provider.fetch())"
  else if ["redis", "fred"].contains crate_name then
    "Use the StateStore provider trait for caching"
  else if ["rdkafka", "kafka", "lapin", "amqp"].contains crate_name then
    "Use the Publisher provider trait for messaging"
  else if ["tokio", "async-std", "smol", "actix-rt", "futures-executor"].contains crate_name then
    "Use async/await without explicit runtime - WASI provides the executor"
  else if crate_name = "rayon" then
    "Use sequential iterators - WASM is single-threaded"
  else if ["crossbeam", "parking_lot"].contains crate_name then
    "WASM is single-threaded; use async/await for concurrency"
  else if ["once_cell", "lazy_static"].contains crate_name then
    "Use the Config provider trait for configuration values"
  else if ["dashmap", "evmap"].contains crate_name then
    "Use the StateStore provider trait for shared state"
  else if ["sqlx", "diesel", "rusqlite", "postgres", "mysql", "mongodb"].contains crate_name then
    "Use the TableStore provider trait for database operations"
  else if ["tempfile", "directories"].contains crate_name then
    "Filesystem is not available in WASM32; use StateStore or TableStore"
  else if ["socket2", "mio", "quinn"].contains crate_name then
    "Use the HttpRequest provider trait for network operations"
  else "This crate is not compatible with WASM32"

/-- Anchored match for `use\s+(\w+)(?:::|;)`: returns
(capture start, capture end, match end), all relative to the anchor. -/
def matchUseAt (l : List Char) : Option (Nat × Nat × Nat) :=
  if listIsPrefix "use".data l then
    let afterKw := l.drop 3
    let w := (afterKw.takeWhile isWs).length
    if w = 0 then none
    else
      let afterWs := afterKw.drop w
      let r := (afterWs.takeWhile isWordChar).length
      if r = 0 then none
      else
        let afterWord := afterWs.drop r
        if listIsPrefix "::".data afterWord then some (3 + w, 3 + w + r, 3 + w + r + 2)
        else if listIsPrefix ";".data afterWord then some (3 + w, 3 + w + r, 3 + w + r + 1)
        else none
  else none

/-- Anchored match for `extern\s+crate\s+(\w+)`: returns
(capture start, capture end, match end), all relative to the anchor. -/
def matchExternAt (l : List Char) : Option (Nat × Nat × Nat) :=
  if listIsPrefix "extern".data l then
    let a1 := l.drop 6
    let w1 := (a1.takeWhile isWs).length
    if w1 = 0 then none
    else
      let a2 := a1.drop w1
      if listIsPrefix "crate".data a2 then
        let a3 := a2.drop 5
        let w2 := (a3.takeWhile isWs).length
        if w2 = 0 then none
        else
          let a4 := a3.drop w2
          let r := (a4.takeWhile isWordChar).length
          if r = 0 then none
          else some (6 + w1 + 5 + w2, 6 + w1 + 5 + w2 + r, 6 + w1 + 5 + w2 + r)
      else none
  else none

/-- All successive non-overlapping captures (Rust `Regex::captures_iter`)
of a matcher yielding (capture start, capture end, match end): returns the
capture spans in whole-line coordinates. -/
def capturesAll (f : List Char → Option (Nat × Nat × Nat)) :
    List Char → Nat → Nat → List (Nat × Nat)
  | _, _, 0 => []
  | [], _, _ => []
  | l@(_ :: rest), i, fuel + 1 =>
    match f l with
    | some (cs, ce, me) =>
      (i + cs, i + ce) :: capturesAll f (l.drop me) (i + me) fuel
    | none => capturesAll f rest (i + 1) fuel

/-- Capture spans of `crate_use_pattern` on a line. -/
def useCaptures (line : String) : List (Nat × Nat) :=
  capturesAll matchUseAt line.data 0 (line.data.length + 1)

/-- Capture spans of `crate_extern_pattern` on a line. -/
def externCaptures (line : String) : List (Nat × Nat) :=
  capturesAll matchExternAt line.data 0 (line.data.length + 1)

/-- Text of the capture span `(s, e)` within `line`. -/
def sliceStr (line : String) (s e : Nat) : String :=
  ⟨(line.data.drop s).take (e - s)⟩

/-- `DiagnosticsEngine::create_forbidden_pattern_diagnostic`
(`src/diagnostics.rs` lines 402–417). -/
def createForbiddenPatternDiagnostic (line_idx s e : Nat)
    (fp : MForbiddenPattern) (line : String) : Diagnostic :=
  { line := line_idx + 1, column := s, end_column := e
    severity := fp.severity, rule_id := fp.id, rule_name := fp.name
    category := .Wasm
    message := fp.reason ++ "\n\nAlternative: " ++ fp.alternative
    fix_template := some fp.alternative, source_snippet := some line }

/-- `DiagnosticsEngine::create_forbidden_crate_diagnostic`
(`src/diagnostics.rs` lines 420–440). -/
def createForbiddenCrateDiagnostic (line_idx s e : Nat)
    (crate_name : String) (line : String) : Diagnostic :=
  let alternative := getCrateAlternative crate_name
  { line := line_idx + 1, column := s, end_column := e
    severity := .Error
    rule_id := "forbidden_crate_" ++ crate_name
    rule_name := "Forbidden Crate: " ++ crate_name
    category := .Wasm
    message := "Crate '" ++ crate_name ++ "' is not available in WASM32.\n\nAlternative: "
      ++ alternative
    fix_template := some alternative, source_snippet := some line }

/-- Comment-prefix test applied per line by `analyze`
(`src/diagnostics.rs` lines 294–297). -/
def commentPrefixed (line : String) : Bool :=
  let t := strTrim line
  strStartsWith t "//" || strStartsWith t "/*" || strStartsWith t "*"

/-- The diagnostics one line contributes in `DiagnosticsEngine::analyze`
(`src/diagnostics.rs` lines 292–352): forbidden-pattern matches filtered by
the string-literal classifier, then forbidden-crate `use`/`extern crate`
captures (not filtered by the classifier), then the rule-set check. -/
def perLineDiagnostics (rules : List MRule) (fps : List MForbiddenPattern)
    (content line : String) (line_idx : Nat) : List Diagnostic :=
  if commentPrefixed line then []
  else
    (fps.flatMap fun fp =>
      fp.regexes.flatMap fun re =>
        match re line with
        | some (s, e) =>
          if insideStringLit content (calcByteOffset content line_idx s) then []
          else [createForbiddenPatternDiagnostic line_idx s e fp line]
        | none => []) ++
    ((useCaptures line).flatMap fun p =>
      let crate_name := sliceStr line p.1 p.2
      if isForbiddenCrate crate_name then
        [createForbiddenCrateDiagnostic line_idx p.1 p.2 crate_name line]
      else []) ++
    ((externCaptures line).flatMap fun p =>
      let crate_name := sliceStr line p.1 p.2
      if isForbiddenCrate crate_name then
        [createForbiddenCrateDiagnostic line_idx p.1 p.2 crate_name line]
      else []) ++
    checkRules rules content line line_idx

/-- `DiagnosticsEngine::analyze` (`src/diagnostics.rs` lines 280–362). The
rule catalog, compiled forbidden patterns and the semantic analyzer (whose
module is not part of this snapshot) are the engine state built in
`DiagnosticsEngine::new`; they enter here as parameters. `isRs` stands for
the `path.extension() == "rs"` test. -/
def analyzeWith (rules : List MRule) (fps : List MForbiddenPattern)
    (semantic : String → List Diagnostic) (content : String) (isRs : Bool) :
    List Diagnostic :=
  if !isRs then []
  else
    let ignore_directives := parseIgnoreDirectives content
    let diagnostics :=
      ((enumL 0 (rustLines content)).flatMap fun p =>
        perLineDiagnostics rules fps content p.2 p.1) ++ semantic content
    diagnostics.filter fun d =>
      !shouldIgnoreDiagnostic d.line d.rule_id ignore_directives

/-! ## Configuration resolver (`src/config.rs`, `src/lib.rs`) -/

/-- Modelled from the spec: the lint level enumeration (`LintLevel`) is
referenced from `src/config.rs` and `src/lib.rs` but its defining module is
missing from this snapshot of the repository. The levels are the four
`Cargo.toml` values documented in `src/config.rs` (`allow`, `warn`, `deny`,
`forbid`). -/
inductive LintLevel
  | allow
  | warn
  | deny
  | forbid
deriving DecidableEq

/-- Modelled from the spec: `LintLevel::to_severity`, used by
`Linter::filter_diagnostics` (`src/lib.rs` line 109), is missing from this
snapshot. Per spec §4.5 a level of `allow` must cause the caller to drop
the diagnostic entirely (`None`); the other levels rewrite the severity
(`warn` reports as a warning; `deny` and `forbid` report as errors). -/
def LintLevel.toSeverity : LintLevel → Option RuleSeverity
  | .allow => none
  | .warn => some .Warning
  | .deny => some .Error
  | .forbid => some .Error

/-- First value bound to `k` in an association list (lookup in a
`HashMap` that was only ever populated through `insert`). -/
def lookupA [BEq κ] (m : List (κ × LintLevel)) (k : κ) : Option LintLevel :=
  match m.find? (fun p => p.1 == k) with
  | some p => some p.2
  | none => none

/-- `HashMap::insert`: any existing binding of `k` is replaced. -/
def insertA [BEq κ] (m : List (κ × LintLevel)) (k : κ) (v : LintLevel) :
    List (κ × LintLevel) :=
  m.filter (fun p => !(p.1 == k)) ++ [(k, v)]

/-- Configuration extracted from a `Cargo.toml` `[lints.qwasr]` table
(`CargoLintConfig` in `src/config.rs` lines 36–50; the `source` path field,
kept only for messages, is not modelled). -/
structure CargoLintConfig where
  all : Option LintLevel
  categories : List (RuleCategory × LintLevel)
  rules : List (String × LintLevel)

/-- `CargoLintConfig::effective_level` (`src/config.rs` lines 60–68):
rule override, then category override, then the supercategory `all`. -/
def CargoLintConfig.effective_level (c : CargoLintConfig) (rule_id : String)
    (category : RuleCategory) : Option LintLevel :=
  match lookupA c.rules rule_id with
  | some level => some level
  | none =>
    match lookupA c.categories category with
    | some level => some level
    | none => c.all

/-- `CargoLintConfig::merge` (`src/config.rs` lines 71–81): the other
config wins on conflicts; its set `all` replaces ours, and its category
and rule entries are inserted over ours. -/
def CargoLintConfig.merge (c other : CargoLintConfig) : CargoLintConfig :=
  { all := if other.all.isSome then other.all else c.all
    categories := other.categories.foldl (fun m p => insertA m p.1 p.2) c.categories
    rules := other.rules.foldl (fun m p => insertA m p.1 p.2) c.rules }

/-- `CargoLintConfig::is_empty` (`src/config.rs` lines 84–86). -/
def CargoLintConfig.isEmptyCfg (c : CargoLintConfig) : Bool :=
  c.all.isNone && c.categories.isEmpty && c.rules.isEmpty

/-- Configuration for the linter (`LintConfig` in `src/lib.rs` lines
36–54; `show_fixes` only affects output rendering and is not modelled). -/
structure LintConfig where
  all_rules : Bool
  categories : List RuleCategory
  disabled_rules : List String
  min_severity : RuleSeverity
  cargo_overrides : CargoLintConfig

/-- Per-diagnostic body of the `filter_map` in `Linter::filter_diagnostics`
(`src/lib.rs` lines 101–135): apply the Cargo override (dropping the
diagnostic when the level maps to no severity, otherwise rewriting its
severity), then the CLI minimum-severity, disabled-rule and category
filters. -/
def filterOne (c : LintConfig) (d : Diagnostic) : Option Diagnostic :=
  let afterOverride : Option Diagnostic :=
    if !c.cargo_overrides.isEmptyCfg then
      match c.cargo_overrides.effective_level d.rule_id d.category with
      | some level =>
        match level.toSeverity with
        | none => none
        | some sev => some { d with severity := sev }
      | none => some d
    else some d
  match afterOverride with
  | none => none
  | some d2 =>
    if sevLt d2.severity c.min_severity then none
    else if c.disabled_rules.contains d2.rule_id then none
    else if !c.categories.isEmpty && !c.categories.contains d2.category then none
    else some d2

/-- `Linter::filter_diagnostics` (`src/lib.rs` lines 101–135). -/
def filterDiagnostics (c : LintConfig) (ds : List Diagnostic) : List Diagnostic :=
  ds.filterMap (filterOne c)

/-! ## Capability analyzer (`.old/src/llm.rs`) -/

/-- Issue attached to one handler implementation (`HandlerIssue` in
`.old/src/llm.rs` lines 92–108). -/
structure HandlerIssue where
  code : String
  severity : IssueSeverity
  message : String
  line : Nat
  fix : Option String
  explanation : String
deriving DecidableEq

/-- The four provider capabilities whose call-shapes
`LlmAnalyzer::detect_provider_usage` recognises. -/
inductive Cap
  | config
  | http
  | publisher
  | stateStore
deriving DecidableEq

/-- The provider-trait name of a capability. -/
def Cap.pname : Cap → String
  | .config => "Config"
  | .http => "HttpRequest"
  | .publisher => "Publisher"
  | .stateStore => "StateStore"

/-- The `config_get` pattern `Config::get|provider\.get\(`. -/
def matchesConfigGet (content : String) : Bool :=
  strContains content "Config::get" || strContains content "provider.get("

/-- The `http_fetch` pattern `HttpRequest::fetch|provider\.fetch\(`. -/
def matchesHttpFetch (content : String) : Bool :=
  strContains content "HttpRequest::fetch" || strContains content "provider.fetch("

/-- The `publisher_send` pattern `Publisher::send|provider\.send\(`. -/
def matchesPublisherSend (content : String) : Bool :=
  strContains content "Publisher::send" || strContains content "provider.send("

/-- The `state_store` pattern
`StateStore::(get|set|delete)|provider\.(get|set|delete)\(`. -/
def matchesStateStore (content : String) : Bool :=
  strContains content "StateStore::get" || strContains content "StateStore::set" ||
  strContains content "StateStore::delete" || strContains content "provider.get(" ||
  strContains content "provider.set(" || strContains content "provider.delete("

/-- `LlmAnalyzer::detect_provider_usage` (`.old/src/llm.rs` lines
558–575): the capabilities whose call-shape occurs in the content, in the
fixed probe order. -/
def detectProviderUsage (content : String) : List String :=
  (if matchesConfigGet content then ["Config"] else []) ++
  (if matchesHttpFetch content then ["HttpRequest"] else []) ++
  (if matchesPublisherSend content then ["Publisher"] else []) ++
  (if matchesStateStore content then ["StateStore"] else [])

/-- The `from_input` pattern `fn\s+from_input`. -/
def hasFromInput (content : String) : Bool :=
  (findPatFrom (fun l =>
    if listIsPrefix "fn".data l then
      let t := l.drop 2
      let w := (t.takeWhile isWs).length
      if w ≠ 0 && listIsPrefix "from_input".data (t.drop w) then some (2 + w + 10)
      else none
    else none) content.data 0).isSome

/-- The `handle_fn` pattern `async\s+fn\s+handle`. -/
def hasHandleFn (content : String) : Bool :=
  (findPatFrom (fun l =>
    if listIsPrefix "async".data l then
      let t := l.drop 5
      let w := (t.takeWhile isWs).length
      if w = 0 then none
      else
        let t2 := t.drop w
        if listIsPrefix "fn".data t2 then
          let t3 := t2.drop 2
          let w2 := (t3.takeWhile isWs).length
          if w2 ≠ 0 && listIsPrefix "handle".data (t3.drop w2) then
            some (5 + w + 2 + w2 + 6)
          else none
        else none
    else none) content.data 0).isSome

/-- The `reply_ok` pattern `Reply::(ok|created|accepted)|\.into\(\)`. -/
def matchesReplyOk (content : String) : Bool :=
  strContains content "Reply::ok" || strContains content "Reply::created" ||
  strContains content "Reply::accepted" || strContains content ".into()"

/-- The missing-`from_input` issue (`.old/src/llm.rs` lines 588–599). -/
def missingFromInputIssue (start_line : Nat) : HandlerIssue :=
  { code := "handler_missing_from_input"
    severity := .Error
    message := "Handler is missing from_input method"
    line := start_line
    fix := some "fn from_input(input: Self::Input) -> Result<Self> \x7b\n    serde_json::from_slice(&input)\n        .context(\"deserializing request\")\n        .map_err(Into::into)\n\x7d"
    explanation := "The from_input method is required by the Handler trait to parse raw input bytes into the request type." }

/-- The missing-`handle` issue (`.old/src/llm.rs` lines 604–614). -/
def missingHandleIssue (start_line : Nat) : HandlerIssue :=
  { code := "handler_missing_handle"
    severity := .Error
    message := "Handler is missing handle method"
    line := start_line
    fix := some "async fn handle(self, ctx: Context<\x27_, P>) -> Result<Reply<Self::Output>> \x7b\n    // Process request\n    Ok(Reply::ok(Self::Output \x7b /* fields */ \x7d))\n\x7d"
    explanation := "The handle method is required by the Handler trait to process the request and return a response." }

/-- The unused-provider-bound issue (`.old/src/llm.rs` lines 621–631). -/
def unusedBoundIssue (bound : String) (start_line : Nat) : HandlerIssue :=
  { code := "handler_unused_provider_bound"
    severity := .Warning
    message := "Provider trait \x27" ++ bound ++ "\x27 is declared but not used"
    line := start_line
    fix := none
    explanation := "The trait bound \x27" ++ bound ++ "\x27 is declared in the impl but no methods from this trait are called. Remove unused bounds to keep the interface minimal." }

/-- The missing-provider-bound issue (`.old/src/llm.rs` lines 638–652). -/
def missingBoundIssue (used_trait : String) (declared_bounds : List String)
    (start_line : Nat) : HandlerIssue :=
  { code := "handler_missing_provider_bound"
    severity := .Error
    message := "Provider trait \x27" ++ used_trait ++ "\x27 is used but not declared in bounds"
    line := start_line
    fix := some ("Add \x27" ++ used_trait ++ "\x27 to the provider bounds: P: " ++
      String.intercalate " + " declared_bounds ++ " + " ++ used_trait)
    explanation := "The code uses methods from \x27" ++ used_trait ++ "\x27 but this trait is not in the generic bounds. Add it to ensure the provider implements the required trait." }

/-- The non-SDK-error issue (`.old/src/llm.rs` lines 662–669). -/
def nonSdkErrorIssue (start_line : Nat) : HandlerIssue :=
  { code := "handler_non_sdk_error"
    severity := .Warning
    message := "Handler returns errors but doesn\x27t use qwasr_sdk error macros"
    line := start_line
    fix := some "Use bad_request!(), server_error!(), or bad_gateway!() macros"
    explanation := "QWASR error macros provide proper HTTP status code mapping and structured error responses." }

/-- The no-`Reply` issue (`.old/src/llm.rs` lines 675–682). -/
def noReplyIssue (start_line : Nat) : HandlerIssue :=
  { code := "handler_no_reply"
    severity := .Hint
    message := "Handler doesn\x27t use Reply constructors explicitly"
    line := start_line
    fix := some "Use Reply::ok(response) or response.into()"
    explanation := "Using Reply::ok(), Reply::created(), or .into() makes the response construction explicit." }

/-- The large-impl issue (`.old/src/llm.rs` lines 688–695). -/
def largeImplIssue (start_line : Nat) : HandlerIssue :=
  { code := "handler_large_impl"
    severity := .Hint
    message := "Handler implementation is large - consider extracting business logic"
    line := start_line
    fix := none
    explanation := "Large handler implementations should extract business logic into separate async functions for better testability and readability." }

/-- `LlmAnalyzer::check_handler_issues` (`.old/src/llm.rs` lines 578–699):
the seven checks in source order — missing `from_input`, missing `handle`,
declared-but-unused bounds, used-but-undeclared bounds, error-macro usage,
`Reply` usage, and oversized implementations. -/
def checkHandlerIssues (impl_content : String) (declared_bounds : List String)
    (start_line : Nat) : List HandlerIssue :=
  let used := detectProviderUsage impl_content
  (if !hasFromInput impl_content then [missingFromInputIssue start_line] else []) ++
  (if !hasHandleFn impl_content then [missingHandleIssue start_line] else []) ++
  (declared_bounds.flatMap fun bound =>
    if !used.contains bound && bound ≠ "P" then [unusedBoundIssue bound start_line]
    else []) ++
  (used.flatMap fun used_trait =>
    if !declared_bounds.contains used_trait then
      [missingBoundIssue used_trait declared_bounds start_line]
    else []) ++
  (if !strContains impl_content "bad_request!" &&
      !strContains impl_content "server_error!" &&
      !strContains impl_content "bad_gateway!" &&
      strContains impl_content "Err(" then [nonSdkErrorIssue start_line] else []) ++
  (if !matchesReplyOk impl_content then [noReplyIssue start_line] else []) ++
  (if decide (50 < (rustLines impl_content).length) &&
      !strContains impl_content "async fn " then [largeImplIssue start_line] else [])

/-- An issue "names" a capability when the capability's trait name occurs
in the issue's message. -/
def issueNames (i : HandlerIssue) (name : String) : Bool :=
  strContains i.message name

/-! ## Statement-level definitions used by the claim theorems -/

/-- Number of diagnostics in `ds` carrying rule id `uid` on line `ln`. -/
def countIdAt (ds : List Diagnostic) (uid : String) (ln : Nat) : Nat :=
  ds.countP fun d => d.rule_id == uid && d.line == ln

/-- All fields of `d'` other than the severity agree with `d`. -/
def frameEq (d d' : Diagnostic) : Prop :=
  d'.line = d.line ∧ d'.column = d.column ∧ d'.end_column = d.end_column ∧
  d'.rule_id = d.rule_id ∧ d'.rule_name = d.rule_name ∧
  d'.category = d.category ∧ d'.message = d.message ∧
  d'.fix_template = d.fix_template ∧ d'.source_snippet = d.source_snippet

/-- A line carrying two unwrap-shaped calls, both outside any string. -/
def c1line : String := "let a = x.unwrap(); let b = y.unwrap();"

/-- A line whose forbidden-crate reference `use tokio::x;` sits entirely
inside a string literal. -/
def c10line : String := "let s = \"use tokio::x; \"; let t = s;"

/-! ## Helper lemmas -/

/-- Filtering a conditional singleton whose element fails the predicate
yields the empty list. -/
lemma filter_ite_nil {α} (p : α → Bool) (c : Prop) [Decidable c] (x : α)
    (h : p x = false) : (if c then [x] else []).filter p = [] := by
  split <;> simp [h]

/-- `filter` distributes through `flatMap`. -/
lemma filter_flatMap {α β} (l : List α) (f : α → List β) (p : β → Bool) :
    (l.flatMap f).filter p = l.flatMap fun a => (f a).filter p := by
  induction l with
  | nil => rfl
  | cons a t ih => simp [List.flatMap_cons, List.filter_append, ih]

/-- `countP` distributes through `flatMap` as a sum. -/
lemma countP_flatMap {α β} (l : List α) (f : α → List β) (p : β → Bool) :
    (l.flatMap f).countP p = (l.map fun a => (f a).countP p).sum := by
  induction l with
  | nil => rfl
  | cons a t ih => simp [List.flatMap_cons, List.countP_append, ih]

/-- Indices produced by `enumL n` are at least `n`. -/
lemma enumL_fst_ge {α} : ∀ (l : List α) (n : Nat) (q : Nat × α),
    q ∈ enumL n l → n ≤ q.1 := by
  intro l
  induction l with
  | nil => intro n q h; simp [enumL] at h
  | cons a t ih =>
    intro n q h
    simp only [enumL, List.mem_cons] at h
    rcases h with h | h
    · simp [h]
    · have := ih (n + 1) q h
      omega

/-- Summing a function over `enumL` when every index but one contributes
nothing. -/
lemma sum_enumL {α} (g : Nat × α → Nat) :
    ∀ (l : List α) (n i : Nat) (a : α), l.get? i = some a →
      (∀ q ∈ enumL n l, q.1 ≠ n + i → g q = 0) →
      ((enumL n l).map g).sum = g (n + i, a) := by
  intro l
  induction l with
  | nil => intro n i a h; simp at h
  | cons b t ih =>
    intro n i a hget hz
    cases i with
    | zero =>
      simp only [List.get?] at hget
      obtain rfl : b = a := by injection hget
      simp only [enumL, List.map_cons, List.sum_cons]
      have ht : ((enumL (n + 1) t).map g).sum = 0 := by
        apply List.sum_eq_zero
        intro x hx
        simp only [List.mem_map] at hx
        obtain ⟨q, hq, rfl⟩ := hx
        exact hz q (List.mem_cons_of_mem _ hq)
          (by have := enumL_fst_ge t (n + 1) q hq; omega)
      rw [ht]
      simp
    | succ i' =>
      simp only [List.get?] at hget
      simp only [enumL, List.map_cons, List.sum_cons]
      have hb : g (n, b) = 0 :=
        hz (n, b) (List.mem_cons_self _ _) (by omega)
      have ht := ih (n + 1) i' a hget (fun q hq hne =>
        hz q (List.mem_cons_of_mem _ hq) (by omega))
      rw [hb, ht]
      have harith : n + 1 + i' = n + (i' + 1) := by omega
      rw [harith]
      simp

/-! ## C4: the line-level suppression window -/

/-- Claim C4 predicts that a line-level directive on the same line as the
diagnostic (`k = 0`) suppresses it; the code requires the directive line to
be strictly smaller, so a directive on line 5 does not suppress a
diagnostic on line 5. -/
theorem C4_counterexample :
    shouldIgnoreDiagnostic 5 "error_generic_unwrap"
      [{ line := 5, is_file_level := false,
         rules := some ["error_generic_unwrap"] }] = false := by decide

/-- C4 (amended): a line-level directive on line `dl` that allows the rule
suppresses a diagnostic on line `dl + k` exactly when `1 ≤ k ≤ 10`: the
window is the ten lines strictly after the directive, not `0 ≤ k ≤ 10`. -/
theorem C4_suppression_window (dl k : Nat) (rule_id : String)
    (rs : Option (List String))
    (hallow : IgnoreDirective.allows ⟨dl, false, rs⟩ rule_id = true) :
    (shouldIgnoreDiagnostic (dl + k) rule_id [⟨dl, false, rs⟩] = true) ↔
      (1 ≤ k ∧ k ≤ 10) := by
  simp only [shouldIgnoreDiagnostic, List.any_cons, List.any_nil, Bool.or_false,
    hallow, Bool.and_true, Bool.not_false, Bool.true_and, Bool.false_and,
    Bool.false_or, Bool.and_eq_true, decide_eq_true_eq]
  omega

/-- Witness for `C4_suppression_window` at `dl = 10`, `k = 3`. -/
theorem C4_suppression_window_witness :
    (shouldIgnoreDiagnostic (10 + 3) "error_generic_unwrap"
      [⟨10, false, some ["error_generic_unwrap"]⟩] = true) ↔ (1 ≤ 3 ∧ 3 ≤ 10) :=
  C4_suppression_window 10 3 "error_generic_unwrap"
    (some ["error_generic_unwrap"]) (by decide)

/-! ## C8: the lexical classifier against its region specification -/

/-- `scanTo` never moves left of its starting point. -/
lemma scanTo_ge (cs : List Char) (p : Char → Bool) (i : Nat) :
    i ≤ scanTo cs p i := by
  unfold scanTo
  omega

/-- `findClose` only finds closing quotes at or after its start. -/
lemma findClose_ge (cs : List Char) :
    ∀ fuel i cq, findClose cs fuel i = some cq → i ≤ cq := by
  intro fuel
  induction fuel with
  | zero => intro i cq h; simp [findClose] at h
  | succ fuel ih =>
    intro i cq h
    rw [findClose] at h
    split at h
    · split at h
      · have := ih (i + 2) cq h
        omega
      · split at h
        · injection h with h; omega
        · have := ih (i + 1) cq h
          omega
    · simp at h

/-- `findRawClose` only returns positions after its start. -/
lemma findRawClose_ge (cs : List Char) (h : Nat) :
    ∀ fuel j k, findRawClose cs h fuel j = some k → j ≤ k := by
  intro fuel
  induction fuel with
  | zero => intro j k hf; simp [findRawClose] at hf
  | succ fuel ih =>
    intro j k hf
    rw [findRawClose] at hf
    split at hf
    · split at hf
      · injection hf with hf; omega
      · have := ih (j + 1) k hf
        omega
    · simp at hf

/-- `rawOpen cs i = some (h, j)` places the opening quote strictly after `i`. -/
lemma rawOpen_j_ge (cs : List Char) (i hsh j : Nat)
    (hro : rawOpen cs i = some (hsh, j)) : i + 1 ≤ j := by
  unfold rawOpen at hro
  split at hro
  · split at hro
    · injection hro with hro
      have hj := congrArg Prod.snd hro
      simp only at hj
      omega
    · simp at hro
  · simp at hro

/-- Every region found from scan position `i` opens at or after `i`. -/
lemma regionsGo_open_ge (cs : List Char) :
    ∀ (fuel i : Nat) (r : StrRegion), r ∈ regionsGo cs fuel i → i ≤ r.openIdx := by
  intro fuel
  induction fuel with
  | zero => intro i r h; simp [regionsGo] at h
  | succ fuel ih =>
    intro i r h
    rw [regionsGo] at h
    split at h
    · rename_i hin
      rw [decide_eq_true_eq] at hin
      split at h
      · have hle : i ≤ scanTo cs (fun c => c = '\n') i := scanTo_ge cs _ i
        have := ih _ r h
        omega
      · rcases hro : rawOpen cs i with _ | ⟨hsh, j⟩
        · simp only [hro] at h
          split at h
          · rcases hfc : findClose cs (cs.length + 1) (i + 1) with _ | cq
            · simp only [hfc] at h
              simp at h
            · simp only [hfc, List.mem_cons] at h
              rcases h with h | h
              · subst h; exact Nat.le_refl i
              · have h1 := findClose_ge cs (cs.length + 1) (i + 1) cq hfc
                have := ih _ r h
                omega
          · have := ih _ r h
            omega
        · simp only [hro] at h
          have hj := rawOpen_j_ge cs i hsh j hro
          rcases hfr : findRawClose cs hsh (cs.length + 1) (j + 1) with _ | k
          · simp only [hfr] at h
            simp at h
          · simp only [hfr, List.mem_cons] at h
            rcases h with h | h
            · subst h; exact Nat.le_refl i
            · have h1 := findRawClose_ge cs hsh (cs.length + 1) (j + 1) k hfr
              have := ih _ r h
              omega
    · simp at h

/-- The scanner's membership answer agrees with the region list, with the
code's boundary semantics recorded in `inRegion`. -/
lemma insideGo_iff_regions (cs : List Char) (off : Nat) :
    ∀ fuel i, insideGo cs off fuel i = true ↔
      ∃ r, r ∈ regionsGo cs fuel i ∧ inRegion r off = true := by
  intro fuel
  induction fuel with
  | zero => intro i; simp [insideGo, regionsGo]
  | succ fuel ih =>
    intro i
    by_cases hilen : i < cs.length
    · by_cases hioff : i < off
      · rw [insideGo, regionsGo,
          if_pos (show (decide (i < off) && decide (i < cs.length)) = true by
            simp [hioff, hilen]),
          if_pos (show decide (i < cs.length) = true by simp [hilen])]
        split
        · exact ih _
        · rcases hro : rawOpen cs i with _ | ⟨hsh, j⟩
          · simp only [hro]
            split
            · rcases hfc : findClose cs (cs.length + 1) (i + 1) with _ | cq
              · simp only [hfc]
                simp
              · simp only [hfc]
                by_cases hin2 : (decide (off > i) && decide (off ≤ cq)) = true
                · rw [if_pos hin2]
                  constructor
                  · intro _
                    exact ⟨⟨.plain, i, cq⟩, List.mem_cons_self _ _, hin2⟩
                  · intro _; rfl
                · rw [if_neg hin2, ih]
                  constructor
                  · rintro ⟨r, hr, hreg⟩
                    exact ⟨r, List.mem_cons_of_mem _ hr, hreg⟩
                  · rintro ⟨r, hr, hreg⟩
                    rcases List.mem_cons.mp hr with h | h
                    · subst h; exact absurd hreg hin2
                    · exact ⟨r, h, hreg⟩
            · exact ih _
          · simp only [hro]
            rcases hfr : findRawClose cs hsh (cs.length + 1) (j + 1) with _ | k
            · simp only [hfr]
              simp
            · simp only [hfr]
              by_cases hin2 : (decide (off > i) && decide (off < k)) = true
              · rw [if_pos hin2]
                constructor
                · intro _
                  exact ⟨⟨.raw, i, k⟩, List.mem_cons_self _ _, hin2⟩
                · intro _; rfl
              · rw [if_neg hin2, ih]
                constructor
                · rintro ⟨r, hr, hreg⟩
                  exact ⟨r, List.mem_cons_of_mem _ hr, hreg⟩
                · rintro ⟨r, hr, hreg⟩
                  rcases List.mem_cons.mp hr with h | h
                  · subst h; exact absurd hreg hin2
                  · exact ⟨r, h, hreg⟩
      · constructor
        · intro hL
          rw [insideGo] at hL
          rw [if_neg (by simp [hioff])] at hL
          exact absurd hL (by simp)
        · rintro ⟨r, hr, hreg⟩
          have hge := regionsGo_open_ge cs (fuel + 1) i r hr
          exfalso
          obtain ⟨kind, o, c⟩ := r
          cases kind <;> simp only [inRegion] at hreg <;>
            simp only [Bool.and_eq_true, decide_eq_true_eq] at hreg <;>
            simp only at hge <;> omega
    · rw [insideGo, regionsGo]
      rw [if_neg (by simp [hilen]), if_neg (by simp [hilen])]
      simp

/-- C8 (amended): the classifier returns true exactly when the offset lies
inside a detected string region with the code's boundary rules — strictly
after the opening delimiter, but up to and INCLUDING the closing quote of a
plain string, and strictly before the end of the closing `"##…#` run of a
raw string. The claim's "exclusive of the closing delimiter" does not hold
(see `C8_counterexample`); comment content still yields no string regions
and hence `false`. -/
theorem C8_classifier_region_semantics (content : String) (off : Nat) :
    insideStringLit content off = true ↔
      ∃ r, r ∈ stringRegions content ∧ inRegion r off = true :=
  insideGo_iff_regions content.data off (content.data.length + 1) 0

/-- Counterexample to C8 as stated: in `"ab"x` the single detected string
region is the plain string with opening quote at offset 0 and closing quote
at offset 3, yet the classifier answers true AT offset 3 — the closing
delimiter itself — contradicting "exclusive of both delimiters". -/
theorem C8_counterexample :
    stringRegions "\"ab\"x" = [⟨.plain, 0, 3⟩] ∧
      insideStringLit "\"ab\"x" 3 = true := by
  constructor <;> rfl

/-! ## C6, C7, C9: configuration precedence, merge, and the severity frame -/

/-- Disequal values test unequal under a lawful `BEq`. -/
lemma beqFalseOfNe {α} [BEq α] [LawfulBEq α] {a b : α} (h : a ≠ b) :
    (a == b) = false := by
  cases hb : a == b
  · rfl
  · exact absurd (eq_of_beq hb) h

/-- `lookupA` on a cons cell. -/
lemma lookupA_cons {κ} [BEq κ] (a : κ × LintLevel) (t : List (κ × LintLevel))
    (k : κ) :
    lookupA (a :: t) k = if (a.1 == k) = true then some a.2 else lookupA t k := by
  by_cases h : (a.1 == k) = true <;> simp [lookupA, List.find?, h]

/-- An empty configuration never produces an effective level. -/
lemma effective_level_of_empty (c : CargoLintConfig) (rid : String)
    (cat : RuleCategory) (h : c.isEmptyCfg = true) :
    c.effective_level rid cat = none := by
  obtain ⟨a, cats, rls⟩ := c
  simp only [CargoLintConfig.isEmptyCfg, Bool.and_eq_true, Option.isNone_iff_eq_none,
    List.isEmpty_iff] at h
  obtain ⟨⟨ha, hc⟩, hr⟩ := h
  subst ha; subst hc; subst hr
  rfl

/-- An effective level of `allow` makes `filterOne` drop the diagnostic. -/
lemma filterOne_allow_none (c : LintConfig) (d : Diagnostic)
    (h : c.cargo_overrides.effective_level d.rule_id d.category = some .allow) :
    filterOne c d = none := by
  by_cases hemp : c.cargo_overrides.isEmptyCfg = true
  · rw [effective_level_of_empty _ _ _ hemp] at h
    exact absurd h (by simp)
  · have hb : (!c.cargo_overrides.isEmptyCfg) = true := by simp [hemp]
    simp only [filterOne, hb, if_true, h, LintLevel.toSeverity]

/-- C6: with global default `warn`, category `X` overridden to `deny` and
rule `r` overridden to `allow`, the resolver yields `allow` for `r` in `X`,
`deny` for any other rule of `X`, `warn` for rules of unrelated categories,
and an effective level of `allow` always drops the diagnostic in
`Linter::filter_diagnostics`. -/
theorem C6_config_precedence (X : RuleCategory) (r : String) :
    (CargoLintConfig.effective_level ⟨some .warn, [(X, .deny)], [(r, .allow)]⟩
        r X = some .allow) ∧
    (∀ r2 : String, r2 ≠ r →
      CargoLintConfig.effective_level ⟨some .warn, [(X, .deny)], [(r, .allow)]⟩
        r2 X = some .deny) ∧
    (∀ (r3 : String) (Y : RuleCategory), Y ≠ X → r3 ≠ r →
      CargoLintConfig.effective_level ⟨some .warn, [(X, .deny)], [(r, .allow)]⟩
        r3 Y = some .warn) ∧
    (∀ (c : LintConfig) (d : Diagnostic),
      c.cargo_overrides.effective_level d.rule_id d.category = some .allow →
      filterOne c d = none) := by
  refine ⟨?_, ?_, ?_, filterOne_allow_none⟩
  · simp [CargoLintConfig.effective_level, lookupA, List.find?]
  · intro r2 hne
    have h1 : (r == r2) = false := beqFalseOfNe (fun h => hne h.symm)
    have h2 : (X == X) = true := by simp
    simp [CargoLintConfig.effective_level, lookupA, List.find?, h1, h2]
  · intro r3 Y hY hr3
    have h1 : (r == r3) = false := beqFalseOfNe (fun h => hr3 h.symm)
    have h2 : (X == Y) = false := beqFalseOfNe (fun h => hY h.symm)
    simp [CargoLintConfig.effective_level, lookupA, List.find?, h1, h2]

/-- Witness: with `X = Error`, `r = error_generic_unwrap`, the category
override decides `error_panic_macro`. -/
theorem C6_config_precedence_witness :
    CargoLintConfig.effective_level
      ⟨some .warn, [(.Error, .deny)], [("error_generic_unwrap", .allow)]⟩
      "error_panic_macro" .Error = some .deny :=
  (C6_config_precedence .Error "error_generic_unwrap").2.1 "error_panic_macro"
    (by decide)

/-- `lookupA` of a key absent from the map. -/
lemma lookupA_not_mem {κ} [BEq κ] [LawfulBEq κ] :
    ∀ (m : List (κ × LintLevel)) (k : κ), k ∉ m.map Prod.fst → lookupA m k = none := by
  intro m
  induction m with
  | nil => intro k _; rfl
  | cons a t ih =>
    intro k hk
    simp only [List.map_cons, List.mem_cons] at hk
    push_neg at hk
    have hf : (a.1 == k) = false := beqFalseOfNe (fun h => hk.1 h.symm)
    rw [lookupA_cons, hf]
    simp only [Bool.false_eq_true, if_false]
    exact ih k hk.2

/-- `lookupA` after a `HashMap`-style insert. -/
lemma lookupA_insertA {κ} [BEq κ] [LawfulBEq κ]
    (m : List (κ × LintLevel)) (k : κ) (v : LintLevel) (k' : κ) :
    lookupA (insertA m k v) k' =
      if (k' == k) = true then some v else lookupA m k' := by
  induction m with
  | nil =>
    by_cases h : k' = k
    · subst h
      simp [insertA, lookupA, List.find?]
    · simp [insertA, lookupA, List.find?, beqFalseOfNe h,
        beqFalseOfNe (fun he => h he.symm)]
  | cons a t ih =>
    by_cases ha : a.1 = k
    · have hstep : insertA (a :: t) k v = insertA t k v := by
        simp [insertA, List.filter_cons, ha]
      rw [hstep, ih]
      by_cases h : k' = k
      · simp [h]
      · have hak' : (a.1 == k') = false :=
          beqFalseOfNe (by rw [ha]; exact fun he => h he.symm)
        simp [beqFalseOfNe h, lookupA_cons, hak']
    · have hstep : insertA (a :: t) k v = a :: insertA t k v := by
        simp [insertA, List.filter_cons, beqFalseOfNe ha]
      rw [hstep, lookupA_cons, ih, lookupA_cons]
      by_cases ha' : a.1 = k'
      · have hkk : (k' == k) = false :=
          beqFalseOfNe (fun he => ha (ha'.trans he))
      -- when the head key equals `k'`, `k'` cannot equal `k`
        simp [ha', hkk]
      · simp [beqFalseOfNe ha']

/-- Folding `HashMap` inserts of a no-duplicate entry list: the inserted
entries win, untouched keys fall back to the original map. -/
lemma lookupA_foldl_insert {κ} [BEq κ] [LawfulBEq κ] :
    ∀ (entries m : List (κ × LintLevel)) (k : κ),
      (entries.map Prod.fst).Nodup →
      lookupA (entries.foldl (fun acc p => insertA acc p.1 p.2) m) k =
        match lookupA entries k with
        | some v => some v
        | none => lookupA m k := by
  intro entries
  induction entries with
  | nil => intro m k _; rfl
  | cons e t ih =>
    intro m k hnd
    simp only [List.map_cons, List.nodup_cons] at hnd
    simp only [List.foldl_cons]
    rw [ih _ k hnd.2, lookupA_cons]
    by_cases hk : e.1 = k
    · have ht : lookupA t k = none := lookupA_not_mem t k (hk ▸ hnd.1)
      simp [ht, lookupA_insertA, hk]
    · have h1 : (e.1 == k) = false := beqFalseOfNe hk
      simp only [h1, Bool.false_eq_true, if_false]
      rcases hlt : lookupA t k with _ | v
      · simp [hlt, lookupA_insertA, beqFalseOfNe (fun he => hk he.symm)]
      · simp [hlt]

/-- C7: merging an overlay onto a base replaces the global default only
when the overlay's is set, and union-merges the category and rule maps with
overlay entries winning on key collision while untouched keys keep the
base's values. -/
theorem C7_merge_semantics (base overlay : CargoLintConfig)
    (h1 : (overlay.categories.map Prod.fst).Nodup)
    (h2 : (overlay.rules.map Prod.fst).Nodup) :
    ((base.merge overlay).all =
      if overlay.all.isSome then overlay.all else base.all) ∧
    (∀ cat : RuleCategory, lookupA (base.merge overlay).categories cat =
      match lookupA overlay.categories cat with
      | some v => some v
      | none => lookupA base.categories cat) ∧
    (∀ rid : String, lookupA (base.merge overlay).rules rid =
      match lookupA overlay.rules rid with
      | some v => some v
      | none => lookupA base.rules rid) := by
  refine ⟨rfl, ?_, ?_⟩
  · intro cat
    exact lookupA_foldl_insert overlay.categories base.categories cat h1
  · intro rid
    exact lookupA_foldl_insert overlay.rules base.rules rid h2

/-- Witness for `C7_merge_semantics` on concrete colliding configs. -/
theorem C7_merge_semantics_witness :
    ((([(RuleCategory.Handler, LintLevel.allow), (RuleCategory.Wasm, LintLevel.deny)]).map
        Prod.fst).Nodup) ∧
    (((CargoLintConfig.merge
        ⟨some .warn, [(.Handler, .deny)], [("error_generic_unwrap", .warn)]⟩
        ⟨none, [(.Handler, .allow), (.Wasm, .deny)], [("perf_clone_in_loop", .allow)]⟩).all =
      if (none : Option LintLevel).isSome then none
      else (some LintLevel.warn : Option LintLevel)) ∧
    (∀ cat : RuleCategory,
      lookupA (CargoLintConfig.merge
        ⟨some .warn, [(.Handler, .deny)], [("error_generic_unwrap", .warn)]⟩
        ⟨none, [(.Handler, .allow), (.Wasm, .deny)], [("perf_clone_in_loop", .allow)]⟩).categories cat =
      match lookupA [(RuleCategory.Handler, LintLevel.allow), (.Wasm, .deny)] cat with
      | some v => some v
      | none => lookupA [(RuleCategory.Handler, LintLevel.deny)] cat) ∧
    (∀ rid : String,
      lookupA (CargoLintConfig.merge
        ⟨some .warn, [(.Handler, .deny)], [("error_generic_unwrap", .warn)]⟩
        ⟨none, [(.Handler, .allow), (.Wasm, .deny)], [("perf_clone_in_loop", .allow)]⟩).rules rid =
      match lookupA [("perf_clone_in_loop", LintLevel.allow)] rid with
      | some v => some v
      | none => lookupA [("error_generic_unwrap", LintLevel.warn)] rid)) :=
  ⟨by decide,
    C7_merge_semantics
      ⟨some .warn, [(.Handler, .deny)], [("error_generic_unwrap", .warn)]⟩
      ⟨none, [(.Handler, .allow), (.Wasm, .deny)], [("perf_clone_in_loop", .allow)]⟩
      (by decide) (by decide)⟩

/-- A surviving diagnostic differs from its input at most in severity. -/
lemma filterOne_some_frame (c : LintConfig) (d d' : Diagnostic)
    (h : filterOne c d = some d') : frameEq d d' := by
  simp only [filterOne] at h
  split at h
  · exact absurd h (by simp)
  · rename_i d2 heq
    split at h
    · exact absurd h (by simp)
    · split at h
      · exact absurd h (by simp)
      · split at h
        · exact absurd h (by simp)
        · injection h with h
          subst h
          -- analyze how `d2` arose from `d`
          split at heq
          · split at heq
            · split at heq
              · exact absurd heq (by simp)
              · injection heq with heq
                subst heq
                exact ⟨rfl, rfl, rfl, rfl, rfl, rfl, rfl, rfl, rfl⟩
            · injection heq with heq
              subst heq
              exact ⟨rfl, rfl, rfl, rfl, rfl, rfl, rfl, rfl, rfl⟩
          · injection heq with heq
            subst heq
            exact ⟨rfl, rfl, rfl, rfl, rfl, rfl, rfl, rfl, rfl⟩

/-- C9: the resolver rewrites only the severity — every diagnostic in the
output of `Linter::filter_diagnostics` is an input diagnostic with every
field but the severity unchanged — and an effective level of `allow` drops
the diagnostic instead of rewriting it. -/
theorem C9_severity_frame :
    (∀ (c : LintConfig) (ds : List Diagnostic) (d' : Diagnostic),
        d' ∈ filterDiagnostics c ds → ∃ d ∈ ds, frameEq d d') ∧
    (∀ (c : LintConfig) (d : Diagnostic),
        c.cargo_overrides.effective_level d.rule_id d.category = some .allow →
        filterOne c d = none) := by
  constructor
  · intro c ds d' hm
    simp only [filterDiagnostics, List.mem_filterMap] at hm
    obtain ⟨d, hd, hf⟩ := hm
    exact ⟨d, hd, filterOne_some_frame c d d' hf⟩
  · exact filterOne_allow_none

/-- Witness: a rule-level `allow` override drops the diagnostic. -/
theorem C9_severity_frame_witness :
    filterOne ⟨true, [], [], .Hint, ⟨none, [], [("error_generic_unwrap", .allow)]⟩⟩
      ⟨1, 0, 6, .Warning, "error_generic_unwrap", "Avoid unwrap/expect", .Error,
        "m", none, none⟩ = none :=
  C9_severity_frame.2 _ _ (by decide)

/-! ## C5: the file-level suppress-all directive -/

/-- C5: when a file-level suppress-all directive (`#![omnia::allow(all)]`,
parsed as file-level with no restricted rule set) is present anywhere in
the content, `analyze` returns the empty diagnostic list, whatever the
catalog, the forbidden patterns, the semantic analyzer, or the number of
violations. -/
theorem C5_file_level_suppress_all (rules : List MRule)
    (fps : List MForbiddenPattern) (semantic : String → List Diagnostic)
    (content : String) (isRs : Bool)
    (h : (parseIgnoreDirectives content).any
          (fun d => d.is_file_level && decide (d.rules = none)) = true) :
    analyzeWith rules fps semantic content isRs = [] := by
  obtain ⟨d0, hd0, hp⟩ := List.any_eq_true.mp h
  rw [Bool.and_eq_true, decide_eq_true_eq] at hp
  have hig : ∀ ln rid,
      shouldIgnoreDiagnostic ln rid (parseIgnoreDirectives content) = true := by
    intro ln rid
    apply List.any_eq_true.mpr
    refine ⟨d0, hd0, ?_⟩
    simp [hp.1, IgnoreDirective.allows, hp.2]
  cases isRs
  · rfl
  · simp only [analyzeWith, Bool.not_true, Bool.false_eq_true, if_false]
    apply List.filter_eq_nil_iff.mpr
    intro d _
    simp [hig]

/-- Witness: a suppress-all file on real violating content is analyzed to
the empty list. -/
theorem C5_file_level_suppress_all_witness :
    analyzeWith [unwrapRule] [] (fun _ => [])
      "#![omnia::allow(all)]\nlet x = y.unwrap();\n" true = [] :=
  C5_file_level_suppress_all [unwrapRule] [] (fun _ => [])
    "#![omnia::allow(all)]\nlet x = y.unwrap();\n" true (by rfl)

/-! ## C10: the forbidden-crate checks bypass the string classifier -/

/-- C10: the crate capture at columns 13–18 (`tokio`) lies inside a string
literal according to the classifier, and yet `analyze` emits the
`forbidden_crate_tokio` diagnostic for it — the use/extern crate checks
never consult `is_inside_string_literal_at_offset`, unlike the pattern and
rule checks. -/
theorem C10_crate_check_skips_classifier (rules : List MRule)
    (fps : List MForbiddenPattern) (semantic : String → List Diagnostic) :
    insideStringLit c10line 13 = true ∧
      createForbiddenCrateDiagnostic 0 13 18 "tokio" c10line ∈
        analyzeWith rules fps semantic c10line true := by
  constructor
  · rfl
  · show createForbiddenCrateDiagnostic 0 13 18 "tokio" c10line ∈
      List.filter _ (((enumL 0 (rustLines c10line)).flatMap fun p =>
        perLineDiagnostics rules fps c10line p.2 p.1) ++ semantic c10line)
    apply List.mem_filter.mpr
    constructor
    · apply List.mem_append_left
      have he : enumL 0 (rustLines c10line) = [(0, c10line)] := rfl
      rw [he]
      simp only [List.flatMap_cons, List.flatMap_nil, List.append_nil]
      simp only [perLineDiagnostics]
      rw [if_neg (by decide)]
      apply List.mem_append_left
      apply List.mem_append_left
      apply List.mem_append_right
      have hu : ((useCaptures c10line).flatMap fun p =>
          if isForbiddenCrate (sliceStr c10line p.1 p.2) then
            [createForbiddenCrateDiagnostic 0 p.1 p.2 (sliceStr c10line p.1 p.2) c10line]
          else []) = [createForbiddenCrateDiagnostic 0 13 18 "tokio" c10line] := rfl
      rw [hu]
      exact List.mem_singleton_self _
    · rfl

/-! ## C2, C3: declared versus used capability bounds -/

/-- Filtering `check_handler_issues` output by a predicate that rejects
every fixed-message issue reduces to the two bound-reconciliation chunks. -/
lemma filter_handler_issues (c1 c2 c5 c6 c7 : Bool) (L3 L4 : List HandlerIssue)
    (p : HandlerIssue → Bool) (k : Nat)
    (h1 : p (missingFromInputIssue k) = false)
    (h2 : p (missingHandleIssue k) = false)
    (h5 : p (nonSdkErrorIssue k) = false)
    (h6 : p (noReplyIssue k) = false)
    (h7 : p (largeImplIssue k) = false) :
    ((if c1 then [missingFromInputIssue k] else []) ++
     (if c2 then [missingHandleIssue k] else []) ++ L3 ++ L4 ++
     (if c5 then [nonSdkErrorIssue k] else []) ++
     (if c6 then [noReplyIssue k] else []) ++
     (if c7 then [largeImplIssue k] else [])).filter p =
      L3.filter p ++ L4.filter p := by
  cases c1 <;> cases c2 <;> cases c5 <;> cases c6 <;> cases c7 <;>
    simp [List.filter_append, h1, h2, h5, h6, h7]

/-- C2: a handler block declaring bounds `{A, B}` in which only `A`'s
call-shape occurs yields exactly one issue naming `B` — the
`handler_unused_provider_bound` Warning — and no issue naming `A`. -/
theorem C2_unused_bound_warning (A B : Cap) (body : String) (k : Nat)
    (hAB : A ≠ B) (hdet : detectProviderUsage body = [A.pname]) :
    ((checkHandlerIssues body [A.pname, B.pname] k).filter
        (fun i => issueNames i B.pname) = [unusedBoundIssue B.pname k]) ∧
    ((checkHandlerIssues body [A.pname, B.pname] k).filter
        (fun i => issueNames i A.pname) = []) := by
  cases A <;> cases B <;> first
    | exact absurd rfl hAB
    | (refine ⟨?_, ?_⟩ <;>
        (simp only [checkHandlerIssues, hdet, Cap.pname]
         rw [filter_handler_issues _ _ _ _ _ _ _ _ _
            (by rfl) (by rfl) (by rfl) (by rfl) (by rfl)]
         rfl))

/-- Witness for `C2_unused_bound_warning`: bounds `{HttpRequest, Config}`
with only the fetch call-shape in the body. -/
theorem C2_unused_bound_warning_witness :
    ((checkHandlerIssues "provider.fetch(" [Cap.http.pname, Cap.config.pname] 7).filter
        (fun i => issueNames i Cap.config.pname) = [unusedBoundIssue Cap.config.pname 7]) ∧
    ((checkHandlerIssues "provider.fetch(" [Cap.http.pname, Cap.config.pname] 7).filter
        (fun i => issueNames i Cap.http.pname) = []) :=
  C2_unused_bound_warning .http .config "provider.fetch(" 7 (by decide) (by rfl)

/-- C3: a handler block declaring bounds `{A}` whose body contains `B`'s
call-shape (`B ≠ A`) yields exactly one issue naming `B` — the
`handler_missing_provider_bound` Error, whose fix suggests the corrected
bound list `P: A + B`. -/
theorem C3_missing_bound_error (A B : Cap) (body : String) (k : Nat)
    (hAB : A ≠ B)
    (hB : (detectProviderUsage body).contains B.pname = true) :
    (checkHandlerIssues body [A.pname] k).filter
        (fun i => issueNames i B.pname) =
      [missingBoundIssue B.pname [A.pname] k] := by
  cases A <;> cases B <;> first
    | exact absurd rfl hAB
    | (simp only [checkHandlerIssues, detectProviderUsage, Cap.pname]
       rw [filter_handler_issues _ _ _ _ _ _ _ _ _
          (by rfl) (by rfl) (by rfl) (by rfl) (by rfl)]
       rcases Bool.eq_false_or_eq_true (matchesConfigGet body) with hm1 | hm1 <;>
         rcases Bool.eq_false_or_eq_true (matchesHttpFetch body) with hm2 | hm2 <;>
         rcases Bool.eq_false_or_eq_true (matchesPublisherSend body) with hm3 | hm3 <;>
         rcases Bool.eq_false_or_eq_true (matchesStateStore body) with hm4 | hm4 <;>
         simp only [hm1, hm2, hm3, hm4] <;>
         first
           | rfl
           | (simp [detectProviderUsage, Cap.pname, hm1, hm2, hm3, hm4] at hB))

/-- Witness for `C3_missing_bound_error`: bound `{Config}` with the fetch
call-shape in the body. -/
theorem C3_missing_bound_error_witness :
    (checkHandlerIssues "provider.fetch(" [Cap.config.pname] 5).filter
        (fun i => issueNames i Cap.http.pname) =
      [missingBoundIssue Cap.http.pname [Cap.config.pname] 5] :=
  C3_missing_bound_error .config .http "provider.fetch(" 5 (by decide) (by rfl)

/-! ## C1: one `error_generic_unwrap` diagnostic per line's first match -/

/-- With no parsed directives, the suppression filter keeps everything. -/
lemma filter_no_directives (ds : List Diagnostic) :
    (ds.filter fun d => !shouldIgnoreDiagnostic d.line d.rule_id []) = ds := by
  apply List.filter_eq_self.mpr
  intro d _
  rfl

/-- A synthetic forbidden-crate id never equals the unwrap rule's id. -/
lemma crate_id_ne_unwrap (s : String) :
    (("forbidden_crate_" ++ s) == "error_generic_unwrap") = false := by
  apply beqFalseOfNe
  intro h
  have h1 : ("forbidden_crate_" ++ s).data.head? = some 'f' := rfl
  rw [h] at h1
  exact absurd h1 (by decide)

/-- A rule's per-line diagnostics carry its id and the line number. -/
lemma ruleLineDiags_mem (rule : MRule) (content line : String) (j : Nat) :
    ∀ d ∈ ruleLineDiags rule content line j,
      d.rule_id = rule.id ∧ d.line = j + 1 := by
  intro d hd
  simp only [ruleLineDiags] at hd
  split at hd
  · split at hd
    · split at hd
      · simp at hd
      · simp only [List.mem_singleton] at hd
        subst hd
        exact ⟨rfl, rfl⟩
    · simp at hd
  · simp at hd

/-- Every diagnostic a line contributes is positioned on that line. -/
lemma perLine_line (rules : List MRule) (fps : List MForbiddenPattern)
    (content line : String) (j : Nat) :
    ∀ d ∈ perLineDiagnostics rules fps content line j, d.line = j + 1 := by
  intro d hd
  simp only [perLineDiagnostics] at hd
  split at hd
  · simp at hd
  · simp only [List.mem_append] at hd
    rcases hd with ((hd | hd) | hd) | hd
    · simp only [List.mem_flatMap] at hd
      obtain ⟨fp, _, re, _, hd⟩ := hd
      split at hd
      · split at hd
        · simp at hd
        · simp only [List.mem_singleton] at hd
          subst hd; rfl
      · simp at hd
    · simp only [List.mem_flatMap] at hd
      obtain ⟨q, _, hd⟩ := hd
      split at hd
      · simp only [List.mem_singleton] at hd
        subst hd; rfl
      · simp at hd
    · simp only [List.mem_flatMap] at hd
      obtain ⟨q, _, hd⟩ := hd
      split at hd
      · simp only [List.mem_singleton] at hd
        subst hd; rfl
      · simp at hd
    · simp only [checkRules, List.mem_flatMap] at hd
      obtain ⟨r, _, hd⟩ := hd
      exact (ruleLineDiags_mem r content line j d hd).2

/-- A line's diagnostics never count towards another line's total. -/
lemma countP_perLine_other_line (rules : List MRule)
    (fps : List MForbiddenPattern) (content line : String) (uid : String)
    (i j : Nat) (hne : j ≠ i) :
    (perLineDiagnostics rules fps content line j).countP
      (fun d => d.rule_id == uid && d.line == i + 1) = 0 := by
  apply List.countP_eq_zero.mpr
  intro d hd
  have hl := perLine_line rules fps content line j d hd
  have : (d.line == i + 1) = false := by
    rw [hl]
    simp
    omega
  simp [this]

/-- Counting diagnostics of one rule id through `check_rules` only sees
the rules carrying that id. -/
lemma countP_checkRules_filter_id (rules : List MRule)
    (content line : String) (i : Nat) (uid : String) (ln : Nat) :
    (checkRules rules content line i).countP
        (fun d => d.rule_id == uid && d.line == ln) =
      (checkRules (rules.filter fun r => r.id == uid) content line i).countP
        (fun d => d.rule_id == uid && d.line == ln) := by
  induction rules with
  | nil => rfl
  | cons r t ih =>
    by_cases hr : (r.id == uid) = true
    · have hf : (r :: t).filter (fun r => r.id == uid) =
          r :: t.filter (fun r => r.id == uid) := by
        simp [List.filter_cons, hr]
      rw [hf]
      simp only [checkRules, List.flatMap_cons, List.countP_append] at ih ⊢
      omega
    · have hz : (ruleLineDiags r content line i).countP
          (fun d => d.rule_id == uid && d.line == ln) = 0 := by
        apply List.countP_eq_zero.mpr
        intro d hd
        have hid := (ruleLineDiags_mem r content line i d hd).1
        simp [hid, hr]
      have hf : (r :: t).filter (fun r => r.id == uid) =
          t.filter (fun r => r.id == uid) := by
        simp [List.filter_cons, hr]
      rw [hf]
      simp only [checkRules, List.flatMap_cons, List.countP_append] at ih ⊢
      omega

/-- C1 (amended): for every analyzed line, the engine emits exactly one
`error_generic_unwrap` diagnostic when the line's FIRST unwrap/expect
match falls outside every string literal (however many further matches the
line holds), and zero diagnostics otherwise — in particular zero when the
line is comment-prefixed, has no match, or its first match sits inside a
plain or raw string. Quantified over any catalog whose only rule with the
unwrap id is the unwrap rule, any forbidden patterns with other ids, any
semantic-analyzer diagnostics with other ids, and directive-free content. -/
theorem C1_per_line_first_match (rules : List MRule)
    (fps : List MForbiddenPattern) (semantic : String → List Diagnostic)
    (content : String) (i : Nat) (line : String)
    (hr : rules.filter (fun r => r.id == "error_generic_unwrap") = [unwrapRule])
    (hfp : ∀ fp ∈ fps, fp.id ≠ "error_generic_unwrap")
    (hsem : ∀ d ∈ semantic content, d.rule_id ≠ "error_generic_unwrap")
    (hdir : parseIgnoreDirectives content = [])
    (hline : (rustLines content).get? i = some line) :
    countIdAt (analyzeWith rules fps semantic content true)
        "error_generic_unwrap" (i + 1) =
      (if commentPrefixed line then 0
       else
        match findPatFrom matchUnwrapAt line.data 0 with
        | none => 0
        | some (s, _) =>
          if insideStringLit content (calcByteOffset content i s) then 0
          else 1) := by
  simp only [analyzeWith, Bool.not_true, Bool.false_eq_true, if_false, hdir]
  rw [filter_no_directives]
  unfold countIdAt
  rw [List.countP_append]
  have hsem0 : (semantic content).countP
      (fun d => d.rule_id == "error_generic_unwrap" && d.line == i + 1) = 0 := by
    apply List.countP_eq_zero.mpr
    intro d hd
    simp [beqFalseOfNe (hsem d hd)]
  rw [hsem0, Nat.add_zero, countP_flatMap]
  rw [sum_enumL _ (rustLines content) 0 i line hline (by
    intro q hq hne
    exact countP_perLine_other_line rules fps content q.2
      "error_generic_unwrap" i q.1 (by omega))]
  simp only [Nat.zero_add]
  simp only [perLineDiagnostics]
  split
  · simp
  · rw [List.countP_append, List.countP_append, List.countP_append]
    have hfp0 : (fps.flatMap fun fp => fp.regexes.flatMap fun re =>
        match re line with
        | some (s, e) =>
          if insideStringLit content (calcByteOffset content i s) then []
          else [createForbiddenPatternDiagnostic i s e fp line]
        | none => []).countP
        (fun d => d.rule_id == "error_generic_unwrap" && d.line == i + 1) = 0 := by
      apply List.countP_eq_zero.mpr
      intro d hd
      simp only [List.mem_flatMap] at hd
      obtain ⟨fp, hfpm, re, _, hd⟩ := hd
      split at hd
      · split at hd
        · simp at hd
        · simp only [List.mem_singleton] at hd
          subst hd
          simp [createForbiddenPatternDiagnostic, beqFalseOfNe (hfp fp hfpm)]
      · simp at hd
    have huse0 : ((useCaptures line).flatMap fun q =>
        if isForbiddenCrate (sliceStr line q.1 q.2) then
          [createForbiddenCrateDiagnostic i q.1 q.2 (sliceStr line q.1 q.2) line]
        else []).countP
        (fun d => d.rule_id == "error_generic_unwrap" && d.line == i + 1) = 0 := by
      apply List.countP_eq_zero.mpr
      intro d hd
      simp only [List.mem_flatMap] at hd
      obtain ⟨q, _, hd⟩ := hd
      split at hd
      · simp only [List.mem_singleton] at hd
        subst hd
        simp [createForbiddenCrateDiagnostic, crate_id_ne_unwrap]
      · simp at hd
    have hext0 : ((externCaptures line).flatMap fun q =>
        if isForbiddenCrate (sliceStr line q.1 q.2) then
          [createForbiddenCrateDiagnostic i q.1 q.2 (sliceStr line q.1 q.2) line]
        else []).countP
        (fun d => d.rule_id == "error_generic_unwrap" && d.line == i + 1) = 0 := by
      apply List.countP_eq_zero.mpr
      intro d hd
      simp only [List.mem_flatMap] at hd
      obtain ⟨q, _, hd⟩ := hd
      split at hd
      · simp only [List.mem_singleton] at hd
        subst hd
        simp [createForbiddenCrateDiagnostic, crate_id_ne_unwrap]
      · simp at hd
    rw [hfp0, huse0, hext0]
    simp only [Nat.zero_add]
    rw [countP_checkRules_filter_id _ _ _ _ "error_generic_unwrap" _, hr]
    simp only [checkRules, List.flatMap_cons, List.flatMap_nil, List.append_nil,
      ruleLineDiags, unwrapRule, if_true]
    split
    · rename_i s e heq
      rw [heq]
      split
      · rename_i hin
        simp [hin]
      · rename_i hin
        simp [hin]
    · rename_i heq
      rw [heq]
      rfl

/-- Witness for `C1_per_line_first_match` on a one-line content with a
single unwrap call outside any string. -/
theorem C1_per_line_first_match_witness :
    countIdAt (analyzeWith [unwrapRule] [] (fun _ => []) "let x = y.unwrap();" true)
        "error_generic_unwrap" (0 + 1) = 1 :=
  (C1_per_line_first_match [unwrapRule] [] (fun _ => []) "let x = y.unwrap();" 0
    "let x = y.unwrap();" (by rfl) (by simp) (by simp) (by rfl) (by rfl)).trans
    (by rfl)

/-- Counterexample to C1 as stated: `c1line` holds two unwrap call-shapes,
both outside any string literal, yet the engine emits exactly one
`error_generic_unwrap` diagnostic (the rule check takes only the FIRST
regex match of each line), not one per occurrence. -/
theorem C1_counterexample :
    (unwrapOccurrences c1line).length = 2 ∧
    (∀ m ∈ unwrapOccurrences c1line,
      insideStringLit c1line (calcByteOffset c1line 0 m.1) = false) ∧
    (analyzeWith [unwrapRule] [] (fun _ => []) c1line true).length = 1 ∧
    countIdAt (analyzeWith [unwrapRule] [] (fun _ => []) c1line true)
      "error_generic_unwrap" 1 = 1 := by
  refine ⟨by rfl, by decide, by rfl, by rfl⟩

end Lints
